import Mathlib

/-!
Shallow embedding of the cold-storage anomaly-detection engine
(`src/cold_storage/sensor.py` together with the constants from
`src/config/parameters.py`).

Timestamps are integers (unix seconds); temperature values are rationals
(the Python floats appear only through `+ - * / max min abs` and medians,
and every claim below is about the exact arithmetic structure of the
algorithm, which the rational model reproduces).

Python lists are Lean lists with `append` at the tail; the numpy boolean
mask `np.array(ys)[ux > c]` — positional selection of `ys` by a predicate
evaluated on `ux` — is `maskSelect`.
-/

namespace ColdStorage

/-- Configuration constants from `src/config/parameters.py`.  In the source
these are module-level constants; keeping them in a structure lets the
theorems quantify over configurations while `defaultParams` records the
shipped values. -/
structure Params where
  S_DELAY : ℤ
  S_ROBUST_CYCLE : ℤ
  S_ROBUST_WIDTH : ℤ
  N_ROBUST_IN_BOUNDS : ℕ
  MMAD : ℚ
  BOUND_MINVAL : ℚ
deriving DecidableEq

/-- `N_ROBUST_DAYS = 5` from parameters.py. -/
def N_ROBUST_DAYS : ℕ := 5

/-- `S_ROBUST_CYCLE = 60*60*16` from parameters.py. -/
def defaultRobustCycle : ℤ := 60 * 60 * 16

/-- `N_ROBUST_IN_BOUNDS = int(((60*60*24) / S_ROBUST_CYCLE) * N_ROBUST_DAYS)`:
Python float division followed by `int()` truncation toward zero.  The float
arithmetic is exact here (`86400 / 57600 = 1.5`, `1.5 * 5 = 7.5`), and the
operands are positive, so rational arithmetic with `Int.floor` models it
exactly. -/
def n_robust_in_bounds_default : ℕ :=
  (⌊((60 * 60 * 24 : ℚ) / (defaultRobustCycle : ℚ)) * (N_ROBUST_DAYS : ℚ)⌋).toNat

/-- The shipped configuration (`src/config/parameters.py`). -/
def defaultParams : Params :=
  { S_DELAY := 60 * 60 * 3
    S_ROBUST_CYCLE := defaultRobustCycle
    S_ROBUST_WIDTH := 60 * 60 * 24
    N_ROBUST_IN_BOUNDS := n_robust_in_bounds_default
    MMAD := 1
    BOUND_MINVAL := 0 }

/-- The per-sensor mutable state of `Sensor.__init__`: the buffered series
and the scalar counters. -/
structure SensorState where
  temperature_ux : List ℤ
  temperature_y : List ℚ
  level_ux : List ℤ
  level_y : List ℚ
  minval_ux : List ℤ
  minval_y : List ℚ
  maxval_ux : List ℤ
  maxval_y : List ℚ
  mad_ux : List ℤ
  mad_y : List ℚ
  upper_bound_ux : List ℤ
  upper_bound_y : List ℚ
  lower_bound_ux : List ℤ
  lower_bound_y : List ℚ
  n_samples : ℕ
  robust_cycle : ℤ
deriving DecidableEq

/-- The freshly constructed sensor: every container empty, counters zero. -/
def initState : SensorState :=
  { temperature_ux := []
    temperature_y := []
    level_ux := []
    level_y := []
    minval_ux := []
    minval_y := []
    maxval_ux := []
    maxval_y := []
    mad_ux := []
    mad_y := []
    upper_bound_ux := []
    upper_bound_y := []
    lower_bound_ux := []
    lower_bound_y := []
    n_samples := 0
    robust_cycle := 0 }

/-- `np.array(ys)[mask]` where `mask` is a boolean predicate evaluated on the
positionally parallel list `ux`: keep `ys i` exactly when `p (ux i)`. -/
def maskSelect (ux : List ℤ) (ys : List ℚ) (p : ℤ → Bool) : List ℚ :=
  ((ux.zip ys).filter (fun q => p q.1)).map Prod.snd

/-- Insert a rational into an already sorted list. -/
def insort (x : ℚ) : List ℚ → List ℚ
  | [] => [x]
  | y :: ys => if x ≤ y then x :: y :: ys else y :: insort x ys

/-- Insertion sort (ascending) on rationals. -/
def sortQ : List ℚ → List ℚ
  | [] => []
  | x :: xs => insort x (sortQ xs)

/-- `np.median`: sort; the middle element for an odd length, the average of
the two middle elements for an even length. -/
def median (l : List ℚ) : ℚ :=
  if l.length % 2 = 1 then (sortQ l).getD (l.length / 2) 0
  else ((sortQ l).getD (l.length / 2 - 1) 0 + (sortQ l).getD (l.length / 2) 0) / 2

/-- Python `max` over a list (the source only calls it on non-empty arrays;
`0` stands in for the unreachable empty case). -/
def listMax : List ℚ → ℚ
  | [] => 0
  | x :: xs => xs.foldl max x

/-- Python `min` over a list, as `listMax`. -/
def listMin : List ℚ → ℚ
  | [] => 0
  | x :: xs => xs.foldl min x

/-- Python `l[-n:]` for `n ≥ 1`: the last `n` elements (the whole list when
`n ≥ length`). -/
def lastN (n : ℕ) (l : List ℚ) : List ℚ := l.drop (l.length - n)

/-- First phase of `Sensor.iterate` (sensor.py lines 68–73): the delay-window
median baseline. -/
def levelStep (p : Params) (s : SensorState) : SensorState :=
  let t := s.temperature_ux.getLastD 0
  let delay_window :=
    maskSelect s.temperature_ux s.temperature_y (fun u => decide (t - 2 * p.S_DELAY < u))
  if 0 < delay_window.length then
    { s with
      level_ux := s.level_ux ++ [t - p.S_DELAY]
      level_y := s.level_y ++ [median delay_window] }
  else s

/-- `Sensor.robust_sampling` (sensor.py lines 103–125): windowed max/min
deviation and MAD against the baseline, then the unconditional cycle-tracker
update. -/
def robust_sampling (p : Params) (s : SensorState) : SensorState :=
  let t := s.temperature_ux.getLastD 0
  let t1 := t - p.S_DELAY - p.S_ROBUST_WIDTH
  let t2 := t - p.S_DELAY
  let robust_window :=
    maskSelect s.temperature_ux s.temperature_y (fun u => decide (t1 ≤ u ∧ u ≤ t2))
  let robust_level :=
    maskSelect s.temperature_ux s.level_y (fun u => decide (t1 ≤ u ∧ u ≤ t2))
  let s1 :=
    if 0 < robust_window.length then
      let yy := List.zipWith (fun a b => a - b) robust_window robust_level
      { s with
        minval_ux := s.minval_ux ++ [t2]
        maxval_ux := s.maxval_ux ++ [t2]
        maxval_y := s.maxval_y ++ [listMax yy]
        minval_y := s.minval_y ++ [listMin yy]
        mad_ux := s.mad_ux ++ [t2]
        mad_y := s.mad_y ++ [median (yy.map (fun z => |z - median yy|))] }
    else s
  { s1 with robust_cycle := t }

/-- The conditional trigger of `robust_sampling` inside `Sensor.iterate`
(sensor.py lines 76–77). -/
def robustStep (p : Params) (s : SensorState) : SensorState :=
  if p.S_ROBUST_CYCLE < s.temperature_ux.getLastD 0 - s.robust_cycle then
    robust_sampling p s
  else s

/-- Final phase of `Sensor.iterate` (sensor.py lines 79–100): the bound
calculation, with the raw-temperature placeholder branch when no robust
statistics exist yet. -/
def boundStep (p : Params) (s : SensorState) : SensorState :=
  let t := s.temperature_ux.getLastD 0
  let n_bounds := min s.mad_y.length p.N_ROBUST_IN_BOUNDS
  if 0 < n_bounds then
    let upper_value :=
      max p.BOUND_MINVAL
        (median (lastN n_bounds s.maxval_y) + median (lastN n_bounds s.mad_y) * p.MMAD)
    let lower_value :=
      min (-p.BOUND_MINVAL)
        (median (lastN n_bounds s.minval_y) - median (lastN n_bounds s.mad_y) * p.MMAD)
    { s with
      upper_bound_ux := s.upper_bound_ux ++ [t - p.S_DELAY]
      upper_bound_y := s.upper_bound_y ++ [s.level_y.getLastD 0 + upper_value]
      lower_bound_ux := s.lower_bound_ux ++ [t - p.S_DELAY]
      lower_bound_y := s.lower_bound_y ++ [s.level_y.getLastD 0 + lower_value] }
  else
    { s with
      upper_bound_ux := s.upper_bound_ux ++ [t - p.S_DELAY]
      upper_bound_y := s.upper_bound_y ++ [s.temperature_y.getLastD 0]
      lower_bound_ux := s.lower_bound_ux ++ [t - p.S_DELAY]
      lower_bound_y := s.lower_bound_y ++ [s.temperature_y.getLastD 0] }

/-- `Sensor.iterate`: baseline, conditional robust sampling, bounds. -/
def iterate (p : Params) (s : SensorState) : SensorState :=
  boundStep p (robustStep p (levelStep p s))

/-- The happy-path mutations of `Sensor.new_event_data` before `iterate`:
append the timestamp and value, bump the sample counter. -/
def appendSample (s : SensorState) (t : ℤ) (v : ℚ) : SensorState :=
  { s with
    temperature_ux := s.temperature_ux ++ [t]
    temperature_y := s.temperature_y ++ [v]
    n_samples := s.n_samples + 1 }

/-- One full ingest of a well-formed sample — `Sensor.new_event_data` on an
event whose fields are all present. -/
def ingest (p : Params) (s : SensorState) (t : ℤ) (v : ℚ) : SensorState :=
  iterate p (appendSample s t v)

/-- Feed a list of samples through `ingest`, left to right. -/
def ingestAll (p : Params) (s : SensorState) (samples : List (ℤ × ℚ)) : SensorState :=
  samples.foldl (fun st tv => ingest p st tv.1 tv.2) s

/-- A run from the fresh sensor. -/
def runSamples (p : Params) (samples : List (ℤ × ℚ)) : SensorState :=
  ingestAll p initState samples

/-- The `data.temperature` payload of an incoming event, with each field
optional: `none` models the field being absent from the json, which in the
source raises `KeyError` at the point of access.  The timestamp is already in
unixtime (the conversion in `helpers.convert_event_data_timestamp` is pure
and total on present fields). -/
structure TemperatureData where
  updateTime : Option ℤ
  value : Option ℚ
deriving DecidableEq

/-- `Sensor.new_event_data` with Python exception semantics made explicit:
the result is the sensor state after the call together with an error flag
(`true` = a `KeyError` escaped and was caught by the Director, which reports
and drops the event).  The source reads `updateTime` first (before any
mutation), then appends the unixtime to `temperature_ux`, and only then reads
the `value` field — so a missing `value` leaves the partially mutated state
behind. -/
def new_event_data (p : Params) (s : SensorState) (ev : TemperatureData) :
    SensorState × Bool :=
  match ev.updateTime with
  | none => (s, true)
  | some t =>
    let s1 := { s with temperature_ux := s.temperature_ux ++ [t] }
    match ev.value with
    | none => (s1, true)
    | some v =>
      (iterate p { s1 with
        temperature_y := s1.temperature_y ++ [v]
        n_samples := s1.n_samples + 1 }, false)


/-- The state of `Sensor.iterate` after the baseline phase and the conditional
robust-sampling phase, i.e. just before the bound calculation;
`ingest p s t v = boundStep p (postRobust p s t v)` definitionally. -/
def postRobust (p : Params) (s : SensorState) (t : ℤ) (v : ℚ) : SensorState :=
  robustStep p (levelStep p (appendSample s t v))

/-- The bound lists are positionally paired and ordered: every appended
(upper, lower) pair satisfies `lower ≤ upper`. -/
def OrdInv (s : SensorState) : Prop :=
  s.upper_bound_y.length = s.lower_bound_y.length ∧
  ∀ i, i < s.upper_bound_y.length → s.lower_bound_y.getD i 0 ≤ s.upper_bound_y.getD i 0

/-- Length bookkeeping: the temperature lists stay parallel, and the baseline
and bound containers each hold one entry per ingested sample. -/
def LenInv (s : SensorState) : Prop :=
  s.temperature_ux.length = s.temperature_y.length ∧
  s.level_ux.length = s.n_samples ∧ s.level_y.length = s.n_samples ∧
  s.upper_bound_ux.length = s.n_samples ∧ s.upper_bound_y.length = s.n_samples ∧
  s.lower_bound_ux.length = s.n_samples ∧ s.lower_bound_y.length = s.n_samples

/-- Robust-cycle accounting for a run whose samples lie in `[t0, tl]`:
`k` bounds the number of robust firings so far; firings are at least
`S_ROBUST_CYCLE + 1` seconds apart (the trigger is a strict comparison on
integer timestamps), and the mad series gains at most one entry per firing. -/
def RobustInv (p : Params) (t0 tl : ℤ) (s : SensorState) : Prop :=
  ∃ k : ℕ, s.mad_y.length ≤ k ∧
    ((k = 0 ∧ s.robust_cycle = 0 ∧ s.mad_y.length = 0) ∨
     (0 < k ∧ t0 + ((k : ℤ) - 1) * (p.S_ROBUST_CYCLE + 1) ≤ s.robust_cycle ∧
      s.robust_cycle ≤ tl))

/-- A buffered history used to exercise `robust_sampling` on a non-empty
window: the sample at 50000 lies inside the robust window of the one at
100000 under the default configuration. -/
def twoSampleState : SensorState :=
  { initState with
    temperature_ux := [50000, 100000]
    temperature_y := [3, 4]
    level_ux := [39200, 89200]
    level_y := [3, 4]
    n_samples := 2 }

/-- A buffered history that already holds one robust statistic, used to
exercise the `n > 0` branch of the bound calculation. -/
def oneRobustState : SensorState :=
  { initState with
    temperature_ux := [900]
    temperature_y := [4]
    level_ux := [-9900]
    level_y := [4]
    minval_ux := [-9900]
    minval_y := [-2]
    maxval_ux := [-9900]
    maxval_y := [2]
    mad_ux := [-9900]
    mad_y := [1]
    n_samples := 1 }

end ColdStorage

namespace ColdStorage

/-! ### Step characterizations: which fields each phase can touch. -/

theorem levelStep_eq (p : Params) (s : SensorState) :
    ∃ lux ly, levelStep p s = { s with level_ux := lux, level_y := ly } := by
  simp only [levelStep]
  split
  · exact ⟨_, _, rfl⟩
  · exact ⟨s.level_ux, s.level_y, rfl⟩

theorem levelStep_apply (p : Params) (s : SensorState)
    (h : 0 < (maskSelect s.temperature_ux s.temperature_y
      (fun u => decide (s.temperature_ux.getLastD 0 - 2 * p.S_DELAY < u))).length) :
    levelStep p s =
      { s with
        level_ux := s.level_ux ++ [s.temperature_ux.getLastD 0 - p.S_DELAY]
        level_y := s.level_y ++ [median (maskSelect s.temperature_ux s.temperature_y
          (fun u => decide (s.temperature_ux.getLastD 0 - 2 * p.S_DELAY < u)))] } := by
  simp only [levelStep]
  rw [if_pos h]

theorem robust_sampling_eq (p : Params) (s : SensorState) :
    ∃ a b c d e f, robust_sampling p s =
      { s with minval_ux := a, maxval_ux := b, maxval_y := c, minval_y := d,
               mad_ux := e, mad_y := f,
               robust_cycle := s.temperature_ux.getLastD 0 } := by
  simp only [robust_sampling]
  split
  · exact ⟨_, _, _, _, _, _, rfl⟩
  · exact ⟨s.minval_ux, s.maxval_ux, s.maxval_y, s.minval_y, s.mad_ux, s.mad_y, rfl⟩

theorem robustStep_eq (p : Params) (s : SensorState) :
    ∃ a b c d e f g, robustStep p s =
      { s with minval_ux := a, maxval_ux := b, maxval_y := c, minval_y := d,
               mad_ux := e, mad_y := f, robust_cycle := g } := by
  unfold robustStep
  split
  · obtain ⟨a, b, c, d, e, f, h⟩ := robust_sampling_eq p s
    exact ⟨a, b, c, d, e, f, _, h⟩
  · exact ⟨s.minval_ux, s.maxval_ux, s.maxval_y, s.minval_y, s.mad_ux, s.mad_y,
      s.robust_cycle, rfl⟩

theorem boundStep_pos_apply (p : Params) (s : SensorState)
    (h : 0 < min s.mad_y.length p.N_ROBUST_IN_BOUNDS) :
    boundStep p s =
      { s with
        upper_bound_ux := s.upper_bound_ux ++ [s.temperature_ux.getLastD 0 - p.S_DELAY]
        upper_bound_y := s.upper_bound_y ++ [s.level_y.getLastD 0 +
          max p.BOUND_MINVAL
            (median (lastN (min s.mad_y.length p.N_ROBUST_IN_BOUNDS) s.maxval_y) +
             median (lastN (min s.mad_y.length p.N_ROBUST_IN_BOUNDS) s.mad_y) * p.MMAD)]
        lower_bound_ux := s.lower_bound_ux ++ [s.temperature_ux.getLastD 0 - p.S_DELAY]
        lower_bound_y := s.lower_bound_y ++ [s.level_y.getLastD 0 +
          min (-p.BOUND_MINVAL)
            (median (lastN (min s.mad_y.length p.N_ROBUST_IN_BOUNDS) s.minval_y) -
             median (lastN (min s.mad_y.length p.N_ROBUST_IN_BOUNDS) s.mad_y) * p.MMAD)] } := by
  simp only [boundStep]
  rw [if_pos h]

theorem boundStep_zero_apply (p : Params) (s : SensorState)
    (h : ¬ 0 < min s.mad_y.length p.N_ROBUST_IN_BOUNDS) :
    boundStep p s =
      { s with
        upper_bound_ux := s.upper_bound_ux ++ [s.temperature_ux.getLastD 0 - p.S_DELAY]
        upper_bound_y := s.upper_bound_y ++ [s.temperature_y.getLastD 0]
        lower_bound_ux := s.lower_bound_ux ++ [s.temperature_ux.getLastD 0 - p.S_DELAY]
        lower_bound_y := s.lower_bound_y ++ [s.temperature_y.getLastD 0] } := by
  simp only [boundStep]
  rw [if_neg h]

theorem boundStep_eq (p : Params) (s : SensorState) :
    ∃ a bu c dl, boundStep p s =
      { s with upper_bound_ux := a, upper_bound_y := bu,
               lower_bound_ux := c, lower_bound_y := dl } := by
  simp only [boundStep]
  split
  · exact ⟨_, _, _, _, rfl⟩
  · exact ⟨_, _, _, _, rfl⟩

/-- The current sample always lies in its own delay window when `DELAY > 0`,
so the selection of `levelStep` is non-empty right after `appendSample`. -/
theorem delay_window_pos (p : Params) (hd : 0 < p.S_DELAY) (s : SensorState)
    (t : ℤ) (v : ℚ) (hlen : s.temperature_ux.length = s.temperature_y.length) :
    0 < (maskSelect (s.temperature_ux ++ [t]) (s.temperature_y ++ [v])
      (fun u => decide (t - 2 * p.S_DELAY < u))).length := by
  unfold maskSelect
  rw [List.zip_append hlen, List.filter_append, List.map_append, List.length_append]
  have h2 : t - 2 * p.S_DELAY < t := by linarith
  simp [h2]

end ColdStorage

namespace ColdStorage

/-- `levelStep` right after a sample append, in concatenated form: with
`DELAY > 0` the window is non-empty and the baseline entry is recorded. -/
theorem levelStep_concat (p : Params) (s : SensorState) (t : ℤ) (v : ℚ)
    (hd : 0 < p.S_DELAY) (hlen : s.temperature_ux.length = s.temperature_y.length) :
    levelStep p (appendSample s t v) =
      { appendSample s t v with
        level_ux := s.level_ux ++ [t - p.S_DELAY]
        level_y := s.level_y ++ [median (maskSelect (s.temperature_ux ++ [t])
          (s.temperature_y ++ [v]) (fun u => decide (t - 2 * p.S_DELAY < u)))] } := by
  have hpos := delay_window_pos p hd s t v hlen
  have hh := levelStep_apply p (appendSample s t v) (by
    simpa only [appendSample, List.getLastD_concat] using hpos)
  simpa only [appendSample, List.getLastD_concat] using hh

/-- Both branches of `boundStep` append exactly one entry to each of the four
bound containers. -/
theorem boundStep_bound_lengths (p : Params) (s : SensorState) :
    (boundStep p s).upper_bound_ux.length = s.upper_bound_ux.length + 1 ∧
    (boundStep p s).upper_bound_y.length = s.upper_bound_y.length + 1 ∧
    (boundStep p s).lower_bound_ux.length = s.lower_bound_ux.length + 1 ∧
    (boundStep p s).lower_bound_y.length = s.lower_bound_y.length + 1 := by
  simp only [boundStep]
  split <;> simp

end ColdStorage

namespace ColdStorage

/-! ### Fields each phase leaves untouched. -/

theorem levelStep_temperature_ux (p : Params) (s : SensorState) :
    (levelStep p s).temperature_ux = s.temperature_ux := by
  obtain ⟨a, b, h⟩ := levelStep_eq p s
  rw [h]

theorem levelStep_temperature_y (p : Params) (s : SensorState) :
    (levelStep p s).temperature_y = s.temperature_y := by
  obtain ⟨a, b, h⟩ := levelStep_eq p s
  rw [h]

theorem levelStep_minval_ux (p : Params) (s : SensorState) :
    (levelStep p s).minval_ux = s.minval_ux := by
  obtain ⟨a, b, h⟩ := levelStep_eq p s
  rw [h]

theorem levelStep_minval_y (p : Params) (s : SensorState) :
    (levelStep p s).minval_y = s.minval_y := by
  obtain ⟨a, b, h⟩ := levelStep_eq p s
  rw [h]

theorem levelStep_maxval_ux (p : Params) (s : SensorState) :
    (levelStep p s).maxval_ux = s.maxval_ux := by
  obtain ⟨a, b, h⟩ := levelStep_eq p s
  rw [h]

theorem levelStep_maxval_y (p : Params) (s : SensorState) :
    (levelStep p s).maxval_y = s.maxval_y := by
  obtain ⟨a, b, h⟩ := levelStep_eq p s
  rw [h]

theorem levelStep_mad_ux (p : Params) (s : SensorState) :
    (levelStep p s).mad_ux = s.mad_ux := by
  obtain ⟨a, b, h⟩ := levelStep_eq p s
  rw [h]

theorem levelStep_mad_y (p : Params) (s : SensorState) :
    (levelStep p s).mad_y = s.mad_y := by
  obtain ⟨a, b, h⟩ := levelStep_eq p s
  rw [h]

theorem levelStep_upper_bound_ux (p : Params) (s : SensorState) :
    (levelStep p s).upper_bound_ux = s.upper_bound_ux := by
  obtain ⟨a, b, h⟩ := levelStep_eq p s
  rw [h]

theorem levelStep_upper_bound_y (p : Params) (s : SensorState) :
    (levelStep p s).upper_bound_y = s.upper_bound_y := by
  obtain ⟨a, b, h⟩ := levelStep_eq p s
  rw [h]

theorem levelStep_lower_bound_ux (p : Params) (s : SensorState) :
    (levelStep p s).lower_bound_ux = s.lower_bound_ux := by
  obtain ⟨a, b, h⟩ := levelStep_eq p s
  rw [h]

theorem levelStep_lower_bound_y (p : Params) (s : SensorState) :
    (levelStep p s).lower_bound_y = s.lower_bound_y := by
  obtain ⟨a, b, h⟩ := levelStep_eq p s
  rw [h]

theorem levelStep_n_samples (p : Params) (s : SensorState) :
    (levelStep p s).n_samples = s.n_samples := by
  obtain ⟨a, b, h⟩ := levelStep_eq p s
  rw [h]

theorem levelStep_robust_cycle (p : Params) (s : SensorState) :
    (levelStep p s).robust_cycle = s.robust_cycle := by
  obtain ⟨a, b, h⟩ := levelStep_eq p s
  rw [h]

theorem robustStep_temperature_ux (p : Params) (s : SensorState) :
    (robustStep p s).temperature_ux = s.temperature_ux := by
  obtain ⟨a, b, c, d, e, f, g, h⟩ := robustStep_eq p s
  rw [h]

theorem robustStep_temperature_y (p : Params) (s : SensorState) :
    (robustStep p s).temperature_y = s.temperature_y := by
  obtain ⟨a, b, c, d, e, f, g, h⟩ := robustStep_eq p s
  rw [h]

theorem robustStep_level_ux (p : Params) (s : SensorState) :
    (robustStep p s).level_ux = s.level_ux := by
  obtain ⟨a, b, c, d, e, f, g, h⟩ := robustStep_eq p s
  rw [h]

theorem robustStep_level_y (p : Params) (s : SensorState) :
    (robustStep p s).level_y = s.level_y := by
  obtain ⟨a, b, c, d, e, f, g, h⟩ := robustStep_eq p s
  rw [h]

theorem robustStep_upper_bound_ux (p : Params) (s : SensorState) :
    (robustStep p s).upper_bound_ux = s.upper_bound_ux := by
  obtain ⟨a, b, c, d, e, f, g, h⟩ := robustStep_eq p s
  rw [h]

theorem robustStep_upper_bound_y (p : Params) (s : SensorState) :
    (robustStep p s).upper_bound_y = s.upper_bound_y := by
  obtain ⟨a, b, c, d, e, f, g, h⟩ := robustStep_eq p s
  rw [h]

theorem robustStep_lower_bound_ux (p : Params) (s : SensorState) :
    (robustStep p s).lower_bound_ux = s.lower_bound_ux := by
  obtain ⟨a, b, c, d, e, f, g, h⟩ := robustStep_eq p s
  rw [h]

theorem robustStep_lower_bound_y (p : Params) (s : SensorState) :
    (robustStep p s).lower_bound_y = s.lower_bound_y := by
  obtain ⟨a, b, c, d, e, f, g, h⟩ := robustStep_eq p s
  rw [h]

theorem robustStep_n_samples (p : Params) (s : SensorState) :
    (robustStep p s).n_samples = s.n_samples := by
  obtain ⟨a, b, c, d, e, f, g, h⟩ := robustStep_eq p s
  rw [h]

theorem boundStep_temperature_ux (p : Params) (s : SensorState) :
    (boundStep p s).temperature_ux = s.temperature_ux := by
  obtain ⟨a, b, c, d, h⟩ := boundStep_eq p s
  rw [h]

theorem boundStep_temperature_y (p : Params) (s : SensorState) :
    (boundStep p s).temperature_y = s.temperature_y := by
  obtain ⟨a, b, c, d, h⟩ := boundStep_eq p s
  rw [h]

theorem boundStep_level_ux (p : Params) (s : SensorState) :
    (boundStep p s).level_ux = s.level_ux := by
  obtain ⟨a, b, c, d, h⟩ := boundStep_eq p s
  rw [h]

theorem boundStep_level_y (p : Params) (s : SensorState) :
    (boundStep p s).level_y = s.level_y := by
  obtain ⟨a, b, c, d, h⟩ := boundStep_eq p s
  rw [h]

theorem boundStep_minval_ux (p : Params) (s : SensorState) :
    (boundStep p s).minval_ux = s.minval_ux := by
  obtain ⟨a, b, c, d, h⟩ := boundStep_eq p s
  rw [h]

theorem boundStep_minval_y (p : Params) (s : SensorState) :
    (boundStep p s).minval_y = s.minval_y := by
  obtain ⟨a, b, c, d, h⟩ := boundStep_eq p s
  rw [h]

theorem boundStep_maxval_ux (p : Params) (s : SensorState) :
    (boundStep p s).maxval_ux = s.maxval_ux := by
  obtain ⟨a, b, c, d, h⟩ := boundStep_eq p s
  rw [h]

theorem boundStep_maxval_y (p : Params) (s : SensorState) :
    (boundStep p s).maxval_y = s.maxval_y := by
  obtain ⟨a, b, c, d, h⟩ := boundStep_eq p s
  rw [h]

theorem boundStep_mad_ux (p : Params) (s : SensorState) :
    (boundStep p s).mad_ux = s.mad_ux := by
  obtain ⟨a, b, c, d, h⟩ := boundStep_eq p s
  rw [h]

theorem boundStep_mad_y (p : Params) (s : SensorState) :
    (boundStep p s).mad_y = s.mad_y := by
  obtain ⟨a, b, c, d, h⟩ := boundStep_eq p s
  rw [h]

theorem boundStep_n_samples (p : Params) (s : SensorState) :
    (boundStep p s).n_samples = s.n_samples := by
  obtain ⟨a, b, c, d, h⟩ := boundStep_eq p s
  rw [h]

theorem boundStep_robust_cycle (p : Params) (s : SensorState) :
    (boundStep p s).robust_cycle = s.robust_cycle := by
  obtain ⟨a, b, c, d, h⟩ := boundStep_eq p s
  rw [h]

end ColdStorage

namespace ColdStorage

/-- Everything one well-formed `ingest` does to the temperature, baseline and
bound containers when `DELAY > 0`. -/
theorem ingest_effects (p : Params) (s : SensorState) (t : ℤ) (v : ℚ)
    (hd : 0 < p.S_DELAY) (hlen : s.temperature_ux.length = s.temperature_y.length) :
    (ingest p s t v).temperature_ux = s.temperature_ux ++ [t] ∧
    (ingest p s t v).temperature_y = s.temperature_y ++ [v] ∧
    (ingest p s t v).n_samples = s.n_samples + 1 ∧
    (ingest p s t v).level_ux = s.level_ux ++ [t - p.S_DELAY] ∧
    (ingest p s t v).level_y = s.level_y ++ [median (maskSelect (s.temperature_ux ++ [t])
      (s.temperature_y ++ [v]) (fun u => decide (t - 2 * p.S_DELAY < u)))] ∧
    (ingest p s t v).upper_bound_ux.length = s.upper_bound_ux.length + 1 ∧
    (ingest p s t v).upper_bound_y.length = s.upper_bound_y.length + 1 ∧
    (ingest p s t v).lower_bound_ux.length = s.lower_bound_ux.length + 1 ∧
    (ingest p s t v).lower_bound_y.length = s.lower_bound_y.length + 1 := by
  have hls := levelStep_concat p s t v hd hlen
  have hbl := boundStep_bound_lengths p (robustStep p (levelStep p (appendSample s t v)))
  unfold ingest iterate
  refine ⟨?_, ?_, ?_, ?_, ?_, ?_, ?_, ?_, ?_⟩
  · rw [boundStep_temperature_ux, robustStep_temperature_ux, hls]; rfl
  · rw [boundStep_temperature_y, robustStep_temperature_y, hls]; rfl
  · rw [boundStep_n_samples, robustStep_n_samples, hls]; rfl
  · rw [boundStep_level_ux, robustStep_level_ux, hls]
  · rw [boundStep_level_y, robustStep_level_y, hls]
  · rw [hbl.1, robustStep_upper_bound_ux, hls]; rfl
  · rw [hbl.2.1, robustStep_upper_bound_y, hls]; rfl
  · rw [hbl.2.2.1, robustStep_lower_bound_ux, hls]; rfl
  · rw [hbl.2.2.2, robustStep_lower_bound_y, hls]; rfl

end ColdStorage

namespace ColdStorage

/-- The median of a single value is that value. -/
theorem median_singleton (v : ℚ) : median [v] = v := by
  simp [median, sortQ, insort]

/-- `robust_sampling` on an empty window only consumes the cycle. -/
theorem robust_sampling_empty (p : Params) (s : SensorState)
    (h : ¬ 0 < (maskSelect s.temperature_ux s.temperature_y
      (fun u => decide (s.temperature_ux.getLastD 0 - p.S_DELAY - p.S_ROBUST_WIDTH ≤ u ∧
        u ≤ s.temperature_ux.getLastD 0 - p.S_DELAY))).length) :
    robust_sampling p s = { s with robust_cycle := s.temperature_ux.getLastD 0 } := by
  simp only [robust_sampling]
  rw [if_neg h]

/-- `robust_sampling` on a non-empty window: the three deviation statistics
are appended and the cycle is consumed. -/
theorem robust_sampling_apply (p : Params) (s : SensorState)
    (h : 0 < (maskSelect s.temperature_ux s.temperature_y
      (fun u => decide (s.temperature_ux.getLastD 0 - p.S_DELAY - p.S_ROBUST_WIDTH ≤ u ∧
        u ≤ s.temperature_ux.getLastD 0 - p.S_DELAY))).length) :
    robust_sampling p s =
      { s with
        minval_ux := s.minval_ux ++ [s.temperature_ux.getLastD 0 - p.S_DELAY]
        maxval_ux := s.maxval_ux ++ [s.temperature_ux.getLastD 0 - p.S_DELAY]
        maxval_y := s.maxval_y ++ [listMax (List.zipWith (fun a b => a - b)
          (maskSelect s.temperature_ux s.temperature_y
            (fun u => decide (s.temperature_ux.getLastD 0 - p.S_DELAY - p.S_ROBUST_WIDTH ≤ u ∧
              u ≤ s.temperature_ux.getLastD 0 - p.S_DELAY)))
          (maskSelect s.temperature_ux s.level_y
            (fun u => decide (s.temperature_ux.getLastD 0 - p.S_DELAY - p.S_ROBUST_WIDTH ≤ u ∧
              u ≤ s.temperature_ux.getLastD 0 - p.S_DELAY))))]
        minval_y := s.minval_y ++ [listMin (List.zipWith (fun a b => a - b)
          (maskSelect s.temperature_ux s.temperature_y
            (fun u => decide (s.temperature_ux.getLastD 0 - p.S_DELAY - p.S_ROBUST_WIDTH ≤ u ∧
              u ≤ s.temperature_ux.getLastD 0 - p.S_DELAY)))
          (maskSelect s.temperature_ux s.level_y
            (fun u => decide (s.temperature_ux.getLastD 0 - p.S_DELAY - p.S_ROBUST_WIDTH ≤ u ∧
              u ≤ s.temperature_ux.getLastD 0 - p.S_DELAY))))]
        mad_ux := s.mad_ux ++ [s.temperature_ux.getLastD 0 - p.S_DELAY]
        mad_y := s.mad_y ++ [median ((List.zipWith (fun a b => a - b)
          (maskSelect s.temperature_ux s.temperature_y
            (fun u => decide (s.temperature_ux.getLastD 0 - p.S_DELAY - p.S_ROBUST_WIDTH ≤ u ∧
              u ≤ s.temperature_ux.getLastD 0 - p.S_DELAY)))
          (maskSelect s.temperature_ux s.level_y
            (fun u => decide (s.temperature_ux.getLastD 0 - p.S_DELAY - p.S_ROBUST_WIDTH ≤ u ∧
              u ≤ s.temperature_ux.getLastD 0 - p.S_DELAY)))).map
          (fun z => |z - median (List.zipWith (fun a b => a - b)
            (maskSelect s.temperature_ux s.temperature_y
              (fun u => decide (s.temperature_ux.getLastD 0 - p.S_DELAY - p.S_ROBUST_WIDTH ≤ u ∧
                u ≤ s.temperature_ux.getLastD 0 - p.S_DELAY)))
            (maskSelect s.temperature_ux s.level_y
              (fun u => decide (s.temperature_ux.getLastD 0 - p.S_DELAY - p.S_ROBUST_WIDTH ≤ u ∧
                u ≤ s.temperature_ux.getLastD 0 - p.S_DELAY))))|))]
        robust_cycle := s.temperature_ux.getLastD 0 } := by
  simp only [robust_sampling]
  rw [if_pos h]

/-- On the very first sample the robust window `[t − DELAY − WIDTH, t − DELAY]`
cannot contain the sample itself (it sits at `t > t − DELAY`), so whether or
not the cycle fires, no robust statistics are appended. -/
theorem robustStep_first (p : Params) (hd : 0 < p.S_DELAY) (t : ℤ) (v : ℚ) :
    ∃ rc, robustStep p (levelStep p (appendSample initState t v)) =
      { levelStep p (appendSample initState t v) with robust_cycle := rc } := by
  unfold robustStep
  split
  · refine ⟨_, robust_sampling_empty p _ ?_⟩
    rw [levelStep_temperature_ux, levelStep_temperature_y]
    simp only [appendSample, initState, List.nil_append]
    simp [maskSelect]
    omega
  · exact ⟨(levelStep p (appendSample initState t v)).robust_cycle, rfl⟩

end ColdStorage

namespace ColdStorage

/-- C1: On each ingest of a sample at time t, the Baseline Estimator selects
exactly the temperature samples with timestamp strictly greater than
t − 2·DELAY; this selection is non-empty when DELAY > 0 (the current sample
itself qualifies), and the entry (t − DELAY, median of the selection) is
appended to the baseline series, where the median of an even-length window
averages the two middle values after sorting. -/
theorem baseline_median_append (p : Params) (s : SensorState) (t : ℤ) (v : ℚ)
    (hd : 0 < p.S_DELAY) (hlen : s.temperature_ux.length = s.temperature_y.length) :
    maskSelect (s.temperature_ux ++ [t]) (s.temperature_y ++ [v])
      (fun u => decide (t - 2 * p.S_DELAY < u)) ≠ [] ∧
    (ingest p s t v).level_ux = s.level_ux ++ [t - p.S_DELAY] ∧
    (ingest p s t v).level_y = s.level_y ++ [median (maskSelect (s.temperature_ux ++ [t])
      (s.temperature_y ++ [v]) (fun u => decide (t - 2 * p.S_DELAY < u)))] ∧
    ∀ l : List ℚ, l.length % 2 = 0 →
      median l = ((sortQ l).getD (l.length / 2 - 1) 0 + (sortQ l).getD (l.length / 2) 0) / 2 := by
  obtain ⟨_, _, _, h4, h5, _⟩ := ingest_effects p s t v hd hlen
  refine ⟨List.length_pos.mp (delay_window_pos p hd s t v hlen), h4, h5, ?_⟩
  intro l hl
  unfold median
  rw [if_neg (by omega)]

theorem baseline_median_append_witness :
    (0 < defaultParams.S_DELAY ∧
      initState.temperature_ux.length = initState.temperature_y.length) ∧
    (ingest defaultParams initState 200000 4).level_y = initState.level_y ++
      [median (maskSelect (initState.temperature_ux ++ [200000])
        (initState.temperature_y ++ [4])
        (fun u => decide (200000 - 2 * defaultParams.S_DELAY < u)))] :=
  ⟨⟨by decide, rfl⟩,
    (baseline_median_append defaultParams initState 200000 4 (by decide) rfl).2.2.1⟩

/-- C8: feeding a single sample (t, v) to the fresh sensor with DELAY > 0
yields exactly the baseline entry (t − DELAY, v), exactly the placeholder
bound entry (t − DELAY, v, v), and no robust-statistics entry. -/
theorem single_sample_boundary (p : Params) (t : ℤ) (v : ℚ) (hd : 0 < p.S_DELAY) :
    (ingest p initState t v).level_ux = [t - p.S_DELAY] ∧
    (ingest p initState t v).level_y = [v] ∧
    (ingest p initState t v).upper_bound_ux = [t - p.S_DELAY] ∧
    (ingest p initState t v).upper_bound_y = [v] ∧
    (ingest p initState t v).lower_bound_ux = [t - p.S_DELAY] ∧
    (ingest p initState t v).lower_bound_y = [v] ∧
    (ingest p initState t v).maxval_y = [] ∧
    (ingest p initState t v).minval_y = [] ∧
    (ingest p initState t v).mad_y = [] := by
  have hmask : maskSelect (initState.temperature_ux ++ [t]) (initState.temperature_y ++ [v])
      (fun u => decide (t - 2 * p.S_DELAY < u)) = [v] := by
    have h2 : t - 2 * p.S_DELAY < t := by linarith
    simp [maskSelect, initState, h2]
  have hlev : levelStep p (appendSample initState t v) =
      { appendSample initState t v with
        level_ux := [t - p.S_DELAY], level_y := [v] } := by
    rw [levelStep_concat p initState t v hd rfl, hmask, median_singleton]
    rfl
  obtain ⟨rc, hrs⟩ := robustStep_first p hd t v
  have hmad : (robustStep p (levelStep p (appendSample initState t v))).mad_y = [] := by
    rw [hrs, hlev]; rfl
  have hb := boundStep_zero_apply p (robustStep p (levelStep p (appendSample initState t v)))
    (by rw [hmad]; simp)
  unfold ingest iterate
  rw [hb]
  refine ⟨?_, ?_, ?_, ?_, ?_, ?_, ?_, ?_, ?_⟩ <;>
    simp only [robustStep_temperature_ux, robustStep_temperature_y] <;>
    rw [hrs, hlev] <;> rfl

theorem single_sample_boundary_witness :
    0 < defaultParams.S_DELAY ∧
    (ingest defaultParams initState 200000 4).upper_bound_y = [4] ∧
    (ingest defaultParams initState 200000 4).mad_y = [] :=
  ⟨by decide,
    (single_sample_boundary defaultParams 200000 4 (by decide)).2.2.2.1,
    (single_sample_boundary defaultParams 200000 4 (by decide)).2.2.2.2.2.2.2.2⟩

end ColdStorage

namespace ColdStorage

/-- C2: when a robust sampling cycle fires at sample time t (the last
buffered timestamp), the sampler selects the temperature samples whose
timestamp lies in [t − DELAY − ROBUST_WIDTH, t − DELAY] together with the
baseline values at the same selection indices; if the selection is
non-empty, with deviation = temperature − baseline elementwise, it appends
(t − DELAY, max deviation) to the max series, (t − DELAY, min deviation) to
the min series and (t − DELAY, median |deviation − median deviation|) to the
dispersion series. -/
theorem robust_cycle_stats (p : Params) (s : SensorState)
    (hf : p.S_ROBUST_CYCLE < s.temperature_ux.getLastD 0 - s.robust_cycle)
    (hne : maskSelect s.temperature_ux s.temperature_y
      (fun u => decide (s.temperature_ux.getLastD 0 - p.S_DELAY - p.S_ROBUST_WIDTH ≤ u ∧
        u ≤ s.temperature_ux.getLastD 0 - p.S_DELAY)) ≠ []) :
    (robustStep p s).maxval_ux = s.maxval_ux ++ [s.temperature_ux.getLastD 0 - p.S_DELAY] ∧
    (robustStep p s).minval_ux = s.minval_ux ++ [s.temperature_ux.getLastD 0 - p.S_DELAY] ∧
    (robustStep p s).mad_ux = s.mad_ux ++ [s.temperature_ux.getLastD 0 - p.S_DELAY] ∧
    (robustStep p s).maxval_y = s.maxval_y ++ [listMax (List.zipWith (fun a b => a - b)
      (maskSelect s.temperature_ux s.temperature_y
        (fun u => decide (s.temperature_ux.getLastD 0 - p.S_DELAY - p.S_ROBUST_WIDTH ≤ u ∧
          u ≤ s.temperature_ux.getLastD 0 - p.S_DELAY)))
      (maskSelect s.temperature_ux s.level_y
        (fun u => decide (s.temperature_ux.getLastD 0 - p.S_DELAY - p.S_ROBUST_WIDTH ≤ u ∧
          u ≤ s.temperature_ux.getLastD 0 - p.S_DELAY))))] ∧
    (robustStep p s).minval_y = s.minval_y ++ [listMin (List.zipWith (fun a b => a - b)
      (maskSelect s.temperature_ux s.temperature_y
        (fun u => decide (s.temperature_ux.getLastD 0 - p.S_DELAY - p.S_ROBUST_WIDTH ≤ u ∧
          u ≤ s.temperature_ux.getLastD 0 - p.S_DELAY)))
      (maskSelect s.temperature_ux s.level_y
        (fun u => decide (s.temperature_ux.getLastD 0 - p.S_DELAY - p.S_ROBUST_WIDTH ≤ u ∧
          u ≤ s.temperature_ux.getLastD 0 - p.S_DELAY))))] ∧
    (robustStep p s).mad_y = s.mad_y ++ [median ((List.zipWith (fun a b => a - b)
      (maskSelect s.temperature_ux s.temperature_y
        (fun u => decide (s.temperature_ux.getLastD 0 - p.S_DELAY - p.S_ROBUST_WIDTH ≤ u ∧
          u ≤ s.temperature_ux.getLastD 0 - p.S_DELAY)))
      (maskSelect s.temperature_ux s.level_y
        (fun u => decide (s.temperature_ux.getLastD 0 - p.S_DELAY - p.S_ROBUST_WIDTH ≤ u ∧
          u ≤ s.temperature_ux.getLastD 0 - p.S_DELAY)))).map
      (fun z => |z - median (List.zipWith (fun a b => a - b)
        (maskSelect s.temperature_ux s.temperature_y
          (fun u => decide (s.temperature_ux.getLastD 0 - p.S_DELAY - p.S_ROBUST_WIDTH ≤ u ∧
            u ≤ s.temperature_ux.getLastD 0 - p.S_DELAY)))
        (maskSelect s.temperature_ux s.level_y
          (fun u => decide (s.temperature_ux.getLastD 0 - p.S_DELAY - p.S_ROBUST_WIDTH ≤ u ∧
            u ≤ s.temperature_ux.getLastD 0 - p.S_DELAY))))|))] := by
  have hfire : robustStep p s = robust_sampling p s := by
    unfold robustStep
    rw [if_pos hf]
  rw [hfire, robust_sampling_apply p s (List.length_pos.mpr hne)]
  exact ⟨rfl, rfl, rfl, rfl, rfl, rfl⟩

theorem robust_cycle_stats_witness :
    defaultParams.S_ROBUST_CYCLE <
      twoSampleState.temperature_ux.getLastD 0 - twoSampleState.robust_cycle ∧
    maskSelect twoSampleState.temperature_ux twoSampleState.temperature_y
      (fun u => decide (twoSampleState.temperature_ux.getLastD 0 - defaultParams.S_DELAY -
        defaultParams.S_ROBUST_WIDTH ≤ u ∧
        u ≤ twoSampleState.temperature_ux.getLastD 0 - defaultParams.S_DELAY)) ≠ [] ∧
    (robustStep defaultParams twoSampleState).maxval_y =
      twoSampleState.maxval_y ++ [listMax (List.zipWith (fun a b => a - b)
        (maskSelect twoSampleState.temperature_ux twoSampleState.temperature_y
          (fun u => decide (twoSampleState.temperature_ux.getLastD 0 - defaultParams.S_DELAY -
            defaultParams.S_ROBUST_WIDTH ≤ u ∧
            u ≤ twoSampleState.temperature_ux.getLastD 0 - defaultParams.S_DELAY)))
        (maskSelect twoSampleState.temperature_ux twoSampleState.level_y
          (fun u => decide (twoSampleState.temperature_ux.getLastD 0 - defaultParams.S_DELAY -
            defaultParams.S_ROBUST_WIDTH ≤ u ∧
            u ≤ twoSampleState.temperature_ux.getLastD 0 - defaultParams.S_DELAY))))] :=
  ⟨by decide, by decide,
    (robust_cycle_stats defaultParams twoSampleState (by decide) (by decide)).2.2.2.1⟩

/-- C3: on every ingest at time t for which n = min(|dispersion series|,
N_BOUND_WINDOWS) is positive after the baseline and robust phases, the Bound
Calculator appends (t − DELAY, level + upper_offset) and (t − DELAY,
level + lower_offset) to the bound series, where upper_offset =
max(BOUND_MINVAL, median(last-n max-deviations) + MMAD·median(last-n
dispersions)), lower_offset = min(−BOUND_MINVAL, median(last-n
min-deviations) − MMAD·median(last-n dispersions)), and level is the most
recent baseline value. -/
theorem bound_calculator_append (p : Params) (s : SensorState) (t : ℤ) (v : ℚ)
    (hn : 0 < min (postRobust p s t v).mad_y.length p.N_ROBUST_IN_BOUNDS) :
    (ingest p s t v).upper_bound_ux = s.upper_bound_ux ++ [t - p.S_DELAY] ∧
    (ingest p s t v).upper_bound_y = s.upper_bound_y ++
      [(postRobust p s t v).level_y.getLastD 0 +
        max p.BOUND_MINVAL
          (median (lastN (min (postRobust p s t v).mad_y.length p.N_ROBUST_IN_BOUNDS)
              (postRobust p s t v).maxval_y) +
           median (lastN (min (postRobust p s t v).mad_y.length p.N_ROBUST_IN_BOUNDS)
              (postRobust p s t v).mad_y) * p.MMAD)] ∧
    (ingest p s t v).lower_bound_ux = s.lower_bound_ux ++ [t - p.S_DELAY] ∧
    (ingest p s t v).lower_bound_y = s.lower_bound_y ++
      [(postRobust p s t v).level_y.getLastD 0 +
        min (-p.BOUND_MINVAL)
          (median (lastN (min (postRobust p s t v).mad_y.length p.N_ROBUST_IN_BOUNDS)
              (postRobust p s t v).minval_y) -
           median (lastN (min (postRobust p s t v).mad_y.length p.N_ROBUST_IN_BOUNDS)
              (postRobust p s t v).mad_y) * p.MMAD)] := by
  have hig : ingest p s t v = boundStep p (postRobust p s t v) := rfl
  have hpr_t : (postRobust p s t v).temperature_ux = s.temperature_ux ++ [t] := by
    unfold postRobust
    rw [robustStep_temperature_ux, levelStep_temperature_ux]
    rfl
  have hlast : (postRobust p s t v).temperature_ux.getLastD 0 = t := by
    rw [hpr_t]
    exact List.getLastD_concat _ _ _
  have hub : (postRobust p s t v).upper_bound_ux = s.upper_bound_ux := by
    unfold postRobust
    rw [robustStep_upper_bound_ux, levelStep_upper_bound_ux]
    rfl
  have huy : (postRobust p s t v).upper_bound_y = s.upper_bound_y := by
    unfold postRobust
    rw [robustStep_upper_bound_y, levelStep_upper_bound_y]
    rfl
  have hlb : (postRobust p s t v).lower_bound_ux = s.lower_bound_ux := by
    unfold postRobust
    rw [robustStep_lower_bound_ux, levelStep_lower_bound_ux]
    rfl
  have hly : (postRobust p s t v).lower_bound_y = s.lower_bound_y := by
    unfold postRobust
    rw [robustStep_lower_bound_y, levelStep_lower_bound_y]
    rfl
  rw [hig, boundStep_pos_apply p (postRobust p s t v) hn]
  refine ⟨?_, ?_, ?_, ?_⟩ <;> dsimp only <;> (try rw [hlast]) <;>
    first
    | rw [hub]
    | rw [huy]
    | rw [hlb]
    | rw [hly]

/-- C9: a bound entry computed with n > 0 keeps at least BOUND_MINVAL of
slack on each side of the most recent baseline value of the ingest that
produced it. -/
theorem bound_floor (p : Params) (s : SensorState) (t : ℤ) (v : ℚ)
    (hn : 0 < min (postRobust p s t v).mad_y.length p.N_ROBUST_IN_BOUNDS) :
    (ingest p s t v).level_y.getLastD 0 + p.BOUND_MINVAL ≤
      (ingest p s t v).upper_bound_y.getLastD 0 ∧
    (ingest p s t v).lower_bound_y.getLastD 0 ≤
      (ingest p s t v).level_y.getLastD 0 - p.BOUND_MINVAL := by
  have hig : ingest p s t v = boundStep p (postRobust p s t v) := rfl
  rw [hig, boundStep_pos_apply p (postRobust p s t v) hn]
  dsimp only
  rw [List.getLastD_concat, List.getLastD_concat]
  constructor
  · exact add_le_add_left (le_max_left _ _) _
  · have h := min_le_left (-p.BOUND_MINVAL)
      (median (lastN (min (postRobust p s t v).mad_y.length p.N_ROBUST_IN_BOUNDS)
          (postRobust p s t v).minval_y) -
       median (lastN (min (postRobust p s t v).mad_y.length p.N_ROBUST_IN_BOUNDS)
          (postRobust p s t v).mad_y) * p.MMAD)
    linarith

end ColdStorage

namespace ColdStorage

theorem n_robust_in_bounds_default_eq : n_robust_in_bounds_default = 7 := by
  norm_num [n_robust_in_bounds_default, defaultRobustCycle, N_ROBUST_DAYS]
  rfl

theorem oneRobustState_n_pos :
    0 < min (postRobust defaultParams oneRobustState 1000 5).mad_y.length
      defaultParams.N_ROBUST_IN_BOUNDS := by
  have h1 : (postRobust defaultParams oneRobustState 1000 5).mad_y = [1] := rfl
  have h2 : defaultParams.N_ROBUST_IN_BOUNDS = 7 := n_robust_in_bounds_default_eq
  rw [h1, h2]
  simp

theorem bound_calculator_append_witness :
    0 < min (postRobust defaultParams oneRobustState 1000 5).mad_y.length
      defaultParams.N_ROBUST_IN_BOUNDS ∧
    (ingest defaultParams oneRobustState 1000 5).upper_bound_ux =
      oneRobustState.upper_bound_ux ++ [1000 - defaultParams.S_DELAY] :=
  ⟨oneRobustState_n_pos,
    (bound_calculator_append defaultParams oneRobustState 1000 5 oneRobustState_n_pos).1⟩

theorem bound_floor_witness :
    0 < min (postRobust defaultParams oneRobustState 1000 5).mad_y.length
      defaultParams.N_ROBUST_IN_BOUNDS ∧
    (ingest defaultParams oneRobustState 1000 5).level_y.getLastD 0 +
        defaultParams.BOUND_MINVAL ≤
      (ingest defaultParams oneRobustState 1000 5).upper_bound_y.getLastD 0 :=
  ⟨oneRobustState_n_pos,
    (bound_floor defaultParams oneRobustState 1000 5 oneRobustState_n_pos).1⟩

end ColdStorage

namespace ColdStorage

/-- C5 counterexample: the shipped bound-window count is 7, while
round((24h / ROBUST_CYCLE) × N_ROBUST_DAYS) = round(7.5) = 8 — the source
truncates with Python `int()`, it does not round. -/
theorem n_bound_windows_not_round :
    n_robust_in_bounds_default = 7 ∧
    round (((60 * 60 * 24 : ℚ) / (defaultRobustCycle : ℚ)) * (N_ROBUST_DAYS : ℚ)) = 8 ∧
    (n_robust_in_bounds_default : ℤ) ≠
      round (((60 * 60 * 24 : ℚ) / (defaultRobustCycle : ℚ)) * (N_ROBUST_DAYS : ℚ)) := by
  have h8 : round (((60 * 60 * 24 : ℚ) / (defaultRobustCycle : ℚ)) * (N_ROBUST_DAYS : ℚ)) = 8 := by
    rw [round_eq]
    have harg : ((60 * 60 * 24 : ℚ) / (defaultRobustCycle : ℚ)) * (N_ROBUST_DAYS : ℚ) + 1 / 2 = 8 := by
      norm_num [defaultRobustCycle, N_ROBUST_DAYS]
    rw [harg]
    norm_num
  refine ⟨n_robust_in_bounds_default_eq, h8, ?_⟩
  rw [n_robust_in_bounds_default_eq, h8]
  decide

/-- C5 amended: N_BOUND_WINDOWS = int((24h / ROBUST_CYCLE) × N_ROBUST_DAYS)
with Python `int()` truncation toward zero; with the default 16-hour cycle
and 5 robust days the operand is 7.5 and the configured count is 7. -/
theorem n_bound_windows_truncated :
    ((60 * 60 * 24 : ℚ) / (defaultRobustCycle : ℚ)) * (N_ROBUST_DAYS : ℚ) = 15 / 2 ∧
    defaultParams.N_ROBUST_IN_BOUNDS = 7 := by
  constructor
  · norm_num [defaultRobustCycle, N_ROBUST_DAYS]
  · exact n_robust_in_bounds_default_eq

/-- C6: an event whose temperature payload has a valid updateTime but no
value field is reported and dropped (the KeyError escapes `new_event_data`
and is caught in `Director.run_stream`), but the buffered series are NOT
left as they were: the unixtime was appended to `temperature_ux` before the
value access raised, so `temperature_ux` is left one entry longer than
`temperature_y`. -/
theorem malformed_event_partial_append :
    (new_event_data defaultParams initState
      { updateTime := some 1000000, value := none }).2 = true ∧
    (new_event_data defaultParams initState
      { updateTime := some 1000000, value := none }).1 ≠ initState ∧
    (new_event_data defaultParams initState
      { updateTime := some 1000000, value := none }).1.temperature_ux.length = 1 ∧
    (new_event_data defaultParams initState
      { updateTime := some 1000000, value := none }).1.temperature_y.length = 0 ∧
    (new_event_data defaultParams initState { updateTime := none, value := none }).1
      = initState := by
  refine ⟨rfl, ?_, rfl, rfl, rfl⟩
  intro h
  have h2 : (new_event_data defaultParams initState
      { updateTime := some 1000000, value := none }).1.temperature_ux = [1000000] := rfl
  rw [h] at h2
  exact absurd h2 (by decide)

end ColdStorage

namespace ColdStorage

theorem lenInv_ingest (p : Params) (hd : 0 < p.S_DELAY) (s : SensorState)
    (t : ℤ) (v : ℚ) (h : LenInv s) : LenInv (ingest p s t v) := by
  obtain ⟨h1, h2, h3, h4, h5, h6, h7⟩ := h
  obtain ⟨e1, e2, e3, e4, e5, e6, e7, e8, e9⟩ := ingest_effects p s t v hd h1
  refine ⟨?_, ?_, ?_, ?_, ?_, ?_, ?_⟩
  · rw [e1, e2]
    simp [h1]
  · rw [e4, e3]
    simp [h2]
  · rw [e5, e3]
    simp [h3]
  · rw [e6, e3, h4]
  · rw [e7, e3, h5]
  · rw [e8, e3, h6]
  · rw [e9, e3, h7]

theorem lenInv_run (p : Params) (hd : 0 < p.S_DELAY) (samples : List (ℤ × ℚ)) :
    ∀ s, LenInv s → LenInv (ingestAll p s samples) ∧
      (ingestAll p s samples).n_samples = s.n_samples + samples.length := by
  induction samples with
  | nil =>
    intro s h
    exact ⟨h, by simp [ingestAll]⟩
  | cons tv rest ih =>
    intro s h
    have h2 := lenInv_ingest p hd s tv.1 tv.2 h
    have h3 := ih (ingest p s tv.1 tv.2) h2
    have hstep : ingestAll p s (tv :: rest) = ingestAll p (ingest p s tv.1 tv.2) rest := rfl
    rw [hstep]
    refine ⟨h3.1, ?_⟩
    rw [h3.2]
    obtain ⟨_, _, e3, _⟩ := ingest_effects p s tv.1 tv.2 hd h.1
    rw [e3]
    simp
    omega

/-- C4: for every sequence of samples fed in increasing timestamp order with
DELAY > 0, after each ingest the bound and baseline series have exactly one
entry per ingested sample: their lengths equal the sample count. -/
theorem series_lengths_eq_sample_count (p : Params) (hd : 0 < p.S_DELAY)
    (samples : List (ℤ × ℚ))
    (hchain : List.Chain' (fun a b => a < b) (samples.map Prod.fst)) :
    (runSamples p samples).level_ux.length = samples.length ∧
    (runSamples p samples).level_y.length = samples.length ∧
    (runSamples p samples).upper_bound_ux.length = samples.length ∧
    (runSamples p samples).upper_bound_y.length = samples.length ∧
    (runSamples p samples).lower_bound_ux.length = samples.length ∧
    (runSamples p samples).lower_bound_y.length = samples.length ∧
    (runSamples p samples).n_samples = samples.length := by
  have hinit : LenInv initState := ⟨rfl, rfl, rfl, rfl, rfl, rfl, rfl⟩
  obtain ⟨⟨h1, h2, h3, h4, h5, h6, h7⟩, hn⟩ := lenInv_run p hd samples initState hinit
  have hn0 : (ingestAll p initState samples).n_samples = samples.length := by
    rw [hn]
    simp [initState]
  unfold runSamples
  exact ⟨h2.trans hn0, h3.trans hn0, h4.trans hn0, h5.trans hn0,
    h6.trans hn0, h7.trans hn0, hn0⟩

theorem series_lengths_eq_sample_count_witness :
    (0 < defaultParams.S_DELAY ∧
      List.Chain' (fun a b => a < b)
        (([((100000 : ℤ), (4 : ℚ)), (200000, 5)]).map Prod.fst)) ∧
    (runSamples defaultParams [((100000 : ℤ), (4 : ℚ)), (200000, 5)]).level_y.length =
      ([((100000 : ℤ), (4 : ℚ)), (200000, 5)]).length :=
  ⟨⟨by decide, by simp [List.chain'_cons]⟩,
    (series_lengths_eq_sample_count defaultParams (by decide)
      [((100000 : ℤ), (4 : ℚ)), (200000, 5)] (by simp [List.chain'_cons])).2.1⟩

end ColdStorage

namespace ColdStorage

theorem postRobust_upper_bound_y2 (p : Params) (s : SensorState) (t : ℤ) (v : ℚ) :
    (postRobust p s t v).upper_bound_y = s.upper_bound_y := by
  unfold postRobust
  rw [robustStep_upper_bound_y, levelStep_upper_bound_y]
  rfl

theorem postRobust_lower_bound_y2 (p : Params) (s : SensorState) (t : ℤ) (v : ℚ) :
    (postRobust p s t v).lower_bound_y = s.lower_bound_y := by
  unfold postRobust
  rw [robustStep_lower_bound_y, levelStep_lower_bound_y]
  rfl

/-- Whatever the branch, `boundStep` appends a single (upper, lower) pair,
and it is ordered when `BOUND_MINVAL ≥ 0`. -/
theorem boundStep_pair (p : Params) (s : SensorState) (hb : 0 ≤ p.BOUND_MINVAL) :
    ∃ u l, (boundStep p s).upper_bound_y = s.upper_bound_y ++ [u] ∧
      (boundStep p s).lower_bound_y = s.lower_bound_y ++ [l] ∧ l ≤ u := by
  by_cases hn : 0 < min s.mad_y.length p.N_ROBUST_IN_BOUNDS
  · rw [boundStep_pos_apply p s hn]
    refine ⟨_, _, rfl, rfl, ?_⟩
    have h1 := le_max_left p.BOUND_MINVAL
      (median (lastN (min s.mad_y.length p.N_ROBUST_IN_BOUNDS) s.maxval_y) +
       median (lastN (min s.mad_y.length p.N_ROBUST_IN_BOUNDS) s.mad_y) * p.MMAD)
    have h2 := min_le_left (-p.BOUND_MINVAL)
      (median (lastN (min s.mad_y.length p.N_ROBUST_IN_BOUNDS) s.minval_y) -
       median (lastN (min s.mad_y.length p.N_ROBUST_IN_BOUNDS) s.mad_y) * p.MMAD)
    linarith
  · rw [boundStep_zero_apply p s hn]
    exact ⟨_, _, rfl, rfl, le_refl _⟩

theorem ordInv_ingest (p : Params) (hb : 0 ≤ p.BOUND_MINVAL) (s : SensorState)
    (t : ℤ) (v : ℚ) (h : OrdInv s) : OrdInv (ingest p s t v) := by
  obtain ⟨hl, hi⟩ := h
  obtain ⟨u, l, hu, hlw, hle⟩ := boundStep_pair p (postRobust p s t v) hb
  rw [postRobust_upper_bound_y2] at hu
  rw [postRobust_lower_bound_y2] at hlw
  have hig : ingest p s t v = boundStep p (postRobust p s t v) := rfl
  rw [OrdInv, hig, hu, hlw]
  constructor
  · simp [hl]
  · intro i hilen
    simp only [List.length_append, List.length_cons, List.length_nil] at hilen
    rcases Nat.lt_or_ge i s.upper_bound_y.length with hc | hc
    · rw [List.getD_append s.upper_bound_y [u] 0 i hc,
        List.getD_append s.lower_bound_y [l] 0 i (by omega)]
      exact hi i hc
    · rw [List.getD_append_right s.upper_bound_y [u] 0 i (by omega),
        List.getD_append_right s.lower_bound_y [l] 0 i (by omega)]
      have e1 : i - s.upper_bound_y.length = 0 := by omega
      have e2 : i - s.lower_bound_y.length = 0 := by omega
      rw [e1, e2]
      simpa using hle

theorem ordInv_run (p : Params) (hb : 0 ≤ p.BOUND_MINVAL) (samples : List (ℤ × ℚ)) :
    ∀ s, OrdInv s → OrdInv (ingestAll p s samples) := by
  induction samples with
  | nil => intro s h; exact h
  | cons tv rest ih =>
    intro s h
    exact ih (ingest p s tv.1 tv.2) (ordInv_ingest p hb s tv.1 tv.2 h)

/-- C10: with BOUND_MINVAL ≥ 0 every bound entry ever appended satisfies
upper ≥ lower; an entry computed with n > 0 has band width at least
2·BOUND_MINVAL because the offsets are clamped to ±BOUND_MINVAL before the
same baseline level is added to both, and a placeholder entry (n = 0) has
upper = lower exactly. -/
theorem bounds_ordered (p : Params) (hb : 0 ≤ p.BOUND_MINVAL)
    (samples : List (ℤ × ℚ)) :
    ((runSamples p samples).upper_bound_y.length =
        (runSamples p samples).lower_bound_y.length ∧
      ∀ i, i < (runSamples p samples).upper_bound_y.length →
        (runSamples p samples).lower_bound_y.getD i 0 ≤
          (runSamples p samples).upper_bound_y.getD i 0) ∧
    (∀ st : SensorState, 0 < min st.mad_y.length p.N_ROBUST_IN_BOUNDS →
      (boundStep p st).lower_bound_y.getLastD 0 + 2 * p.BOUND_MINVAL ≤
        (boundStep p st).upper_bound_y.getLastD 0) ∧
    (∀ st : SensorState, min st.mad_y.length p.N_ROBUST_IN_BOUNDS = 0 →
      (boundStep p st).upper_bound_y.getLastD 0 =
        (boundStep p st).lower_bound_y.getLastD 0) := by
  refine ⟨?_, ?_, ?_⟩
  · have hinit : OrdInv initState := by
      constructor
      · rfl
      · intro i hi
        simp [initState] at hi
    exact ordInv_run p hb samples initState hinit
  · intro st hn
    rw [boundStep_pos_apply p st hn]
    dsimp only
    rw [List.getLastD_concat, List.getLastD_concat]
    have h1 := le_max_left p.BOUND_MINVAL
      (median (lastN (min st.mad_y.length p.N_ROBUST_IN_BOUNDS) st.maxval_y) +
       median (lastN (min st.mad_y.length p.N_ROBUST_IN_BOUNDS) st.mad_y) * p.MMAD)
    have h2 := min_le_left (-p.BOUND_MINVAL)
      (median (lastN (min st.mad_y.length p.N_ROBUST_IN_BOUNDS) st.minval_y) -
       median (lastN (min st.mad_y.length p.N_ROBUST_IN_BOUNDS) st.mad_y) * p.MMAD)
    linarith
  · intro st hn
    rw [boundStep_zero_apply p st (by omega)]
    dsimp only
    rw [List.getLastD_concat, List.getLastD_concat]

theorem bounds_ordered_witness :
    (0 : ℚ) ≤ defaultParams.BOUND_MINVAL ∧
    (runSamples defaultParams [((100000 : ℤ), (4 : ℚ))]).upper_bound_y.length =
      (runSamples defaultParams [((100000 : ℤ), (4 : ℚ))]).lower_bound_y.length :=
  ⟨by decide, (bounds_ordered defaultParams (by decide) [((100000 : ℤ), (4 : ℚ))]).1.1⟩

end ColdStorage

namespace ColdStorage

theorem robust_sampling_mad_le (p : Params) (s : SensorState) :
    (robust_sampling p s).mad_y.length ≤ s.mad_y.length + 1 := by
  simp only [robust_sampling]
  split <;> simp

theorem robust_sampling_robust_cycle (p : Params) (s : SensorState) :
    (robust_sampling p s).robust_cycle = s.temperature_ux.getLastD 0 := by
  simp only [robust_sampling]

end ColdStorage

namespace ColdStorage

/-- An ingest whose robust cycle fires appends at most one dispersion entry
and moves the cycle tracker to the new sample time. -/
theorem ingest_mad_fire (p : Params) (s : SensorState) (t : ℤ) (v : ℚ)
    (hf : p.S_ROBUST_CYCLE < t - s.robust_cycle) :
    (ingest p s t v).mad_y.length ≤ s.mad_y.length + 1 ∧
    (ingest p s t v).robust_cycle = t := by
  have hLt : (levelStep p (appendSample s t v)).temperature_ux.getLastD 0 = t := by
    rw [levelStep_temperature_ux]
    exact List.getLastD_concat 0 t s.temperature_ux
  have hLrc : (levelStep p (appendSample s t v)).robust_cycle = s.robust_cycle := by
    rw [levelStep_robust_cycle]
    rfl
  have hLmad : (levelStep p (appendSample s t v)).mad_y = s.mad_y := by
    rw [levelStep_mad_y]
    rfl
  have hrs : robustStep p (levelStep p (appendSample s t v)) =
      robust_sampling p (levelStep p (appendSample s t v)) := by
    unfold robustStep
    rw [hLt, hLrc, if_pos hf]
  have hig : ingest p s t v =
      boundStep p (robustStep p (levelStep p (appendSample s t v))) := rfl
  constructor
  · rw [hig, boundStep_mad_y, hrs]
    calc (robust_sampling p (levelStep p (appendSample s t v))).mad_y.length
        ≤ (levelStep p (appendSample s t v)).mad_y.length + 1 :=
          robust_sampling_mad_le p _
      _ = s.mad_y.length + 1 := by rw [hLmad]
  · rw [hig, boundStep_robust_cycle, hrs, robust_sampling_robust_cycle, hLt]

/-- An ingest whose robust cycle does not fire leaves the dispersion series
and the cycle tracker untouched. -/
theorem ingest_mad_nofire (p : Params) (s : SensorState) (t : ℤ) (v : ℚ)
    (hf : ¬ p.S_ROBUST_CYCLE < t - s.robust_cycle) :
    (ingest p s t v).mad_y = s.mad_y ∧
    (ingest p s t v).robust_cycle = s.robust_cycle := by
  have hLt : (levelStep p (appendSample s t v)).temperature_ux.getLastD 0 = t := by
    rw [levelStep_temperature_ux]
    exact List.getLastD_concat 0 t s.temperature_ux
  have hLrc : (levelStep p (appendSample s t v)).robust_cycle = s.robust_cycle := by
    rw [levelStep_robust_cycle]
    rfl
  have hrs : robustStep p (levelStep p (appendSample s t v)) =
      levelStep p (appendSample s t v) := by
    unfold robustStep
    rw [hLt, hLrc, if_neg hf]
  have hig : ingest p s t v =
      boundStep p (robustStep p (levelStep p (appendSample s t v))) := rfl
  constructor
  · rw [hig, boundStep_mad_y, hrs, levelStep_mad_y]
    rfl
  · rw [hig, boundStep_robust_cycle, hrs, hLrc]

theorem robustInv_ingest (p : Params) (t0 tl t : ℤ) (v : ℚ)
    (s : SensorState) (h0 : t0 ≤ tl) (ht : tl ≤ t) (hinv : RobustInv p t0 tl s) :
    RobustInv p t0 t (ingest p s t v) := by
  obtain ⟨k, hk, hcase⟩ := hinv
  by_cases hf : p.S_ROBUST_CYCLE < t - s.robust_cycle
  · obtain ⟨hlen, hrc⟩ := ingest_mad_fire p s t v hf
    refine ⟨k + 1, by omega, Or.inr ⟨Nat.succ_pos k, ?_, ?_⟩⟩
    · rw [hrc]
      have hcast : ((k + 1 : ℕ) : ℤ) - 1 = (k : ℤ) := by push_cast; ring
      rw [hcast]
      rcases hcase with ⟨hk0, hrc0, _⟩ | ⟨hkpos, hlb, hub⟩
      · subst hk0
        rw [hrc0] at hf
        simp only [Nat.cast_zero, zero_mul]
        linarith
      · have hmul : ((k : ℤ) - 1) * (p.S_ROBUST_CYCLE + 1) + (p.S_ROBUST_CYCLE + 1) =
            (k : ℤ) * (p.S_ROBUST_CYCLE + 1) := by ring
        linarith
    · rw [hrc]
  · obtain ⟨hmad, hrc⟩ := ingest_mad_nofire p s t v hf
    refine ⟨k, by rw [hmad]; exact hk, ?_⟩
    rcases hcase with ⟨hk0, hrc0, hm0⟩ | ⟨hkpos, hlb, hub⟩
    · exact Or.inl ⟨hk0, by rw [hrc]; exact hrc0, by rw [hmad]; exact hm0⟩
    · exact Or.inr ⟨hkpos, by rw [hrc]; exact hlb, by rw [hrc]; omega⟩

theorem robustInv_run (p : Params) (t0 : ℤ) (samples : List (ℤ × ℚ)) :
    ∀ tl s, t0 ≤ tl → List.Chain (fun a b => a ≤ b) tl (samples.map Prod.fst) →
      RobustInv p t0 tl s →
      RobustInv p t0 ((samples.map Prod.fst).getLastD tl) (ingestAll p s samples) := by
  induction samples with
  | nil => intro tl s _ _ hinv; exact hinv
  | cons tv rest ih =>
    intro tl s h0 hchain hinv
    rw [List.map_cons, List.chain_cons] at hchain
    obtain ⟨hle, hch⟩ := hchain
    have hinv2 := robustInv_ingest p t0 tl tv.1 tv.2 s h0 hle hinv
    have hrun := ih tv.1 (ingest p s tv.1 tv.2) (le_trans h0 hle) hch hinv2
    rw [List.map_cons, List.getLastD_cons]
    exact hrun

end ColdStorage

namespace ColdStorage

/-- C7: for samples fed in non-decreasing timestamp order the dispersion
series has at most floor(total elapsed source time / ROBUST_CYCLE) + 1
entries, and a fired robust cycle unconditionally sets the cycle tracker to
the sample time even when its window was empty. -/
theorem robust_entries_rate_bound (p : Params) (hc : 0 < p.S_ROBUST_CYCLE)
    (t0 : ℤ) (v0 : ℚ) (rest : List (ℤ × ℚ))
    (hchain : List.Chain' (fun a b => a ≤ b) (((t0, v0) :: rest).map Prod.fst)) :
    (runSamples p ((t0, v0) :: rest)).mad_y.length ≤
      (((rest.map Prod.fst).getLastD t0 - t0) / p.S_ROBUST_CYCLE).toNat + 1 ∧
    ∀ s : SensorState,
      (robust_sampling p s).robust_cycle = s.temperature_ux.getLastD 0 := by
  refine ⟨?_, fun s => robust_sampling_robust_cycle p s⟩
  have hch : List.Chain (fun a b => a ≤ b) t0 (rest.map Prod.fst) := by
    rw [List.map_cons] at hchain
    exact hchain
  have hch2 : List.Chain (fun a b => a ≤ b) t0 (((t0, v0) :: rest).map Prod.fst) := by
    rw [List.map_cons]
    exact List.Chain.cons (le_refl t0) hch
  have hinit : RobustInv p t0 t0 initState := ⟨0, Nat.le_refl 0, Or.inl ⟨rfl, rfl, rfl⟩⟩
  have hrun := robustInv_run p t0 ((t0, v0) :: rest) t0 initState (le_refl t0) hch2 hinit
  rw [List.map_cons, List.getLastD_cons] at hrun
  obtain ⟨k, hk, hcase⟩ := hrun
  rcases hcase with ⟨_, _, hm⟩ | ⟨hkpos, hlb, hub⟩
  · unfold runSamples
    omega
  · unfold runSamples
    set T := (rest.map Prod.fst).getLastD t0 with hT
    have hk1 : (1 : ℤ) ≤ (k : ℤ) := by exact_mod_cast hkpos
    have hnn : (0 : ℤ) ≤ ((k : ℤ) - 1) * (p.S_ROBUST_CYCLE + 1) := by
      apply mul_nonneg <;> linarith
    have h2 : ((k : ℤ) - 1) * p.S_ROBUST_CYCLE ≤ T - t0 := by
      have h1 : ((k : ℤ) - 1) * p.S_ROBUST_CYCLE ≤
          ((k : ℤ) - 1) * (p.S_ROBUST_CYCLE + 1) := by
        apply mul_le_mul_of_nonneg_left (by linarith) (by linarith)
      linarith
    have h3 : (k : ℤ) - 1 ≤ (T - t0) / p.S_ROBUST_CYCLE :=
      (Int.le_ediv_iff_mul_le hc).mpr h2
    have h4 : 0 ≤ (T - t0) / p.S_ROBUST_CYCLE :=
      Int.ediv_nonneg (by linarith) (by linarith)
    omega

theorem robust_entries_rate_bound_witness :
    (0 < defaultParams.S_ROBUST_CYCLE ∧
      List.Chain' (fun a b => a ≤ b)
        ((((100000 : ℤ), (4 : ℚ)) :: []).map Prod.fst)) ∧
    (runSamples defaultParams [((100000 : ℤ), (4 : ℚ))]).mad_y.length ≤
      (((([] : List (ℤ × ℚ)).map Prod.fst).getLastD 100000 - 100000) /
        defaultParams.S_ROBUST_CYCLE).toNat + 1 :=
  ⟨⟨by decide, by simp⟩,
    (robust_entries_rate_bound defaultParams (by decide) 100000 4 [] (by simp)).1⟩

end ColdStorage
